import Mathlib

/-!
# Verification of the forge-loop core (`src/forgeloop_cli/__init__.py`)

Shallow embedding of the progress-tracking and remote-fetch subsystem:
the `StepTracker` class, the GitHub token/auth-header helpers
(`_github_token`, `_github_auth_headers`) and the rate-limit header
parsing/diagnostic formatting (`_parse_rate_limit_headers`,
`_format_rate_limit_error`).

Python conventions used by the embedding:
* a value of type `Option String` models a Python `str | None`;
* `Except String α` models a Python computation that may raise
  (the error payload names the exception);
* machine integers do not occur (Python ints are unbounded), so `Int`
  models Python `int` directly;
* stdlib pieces (`str.strip`, `int(str)`, `datetime.fromtimestamp`)
  are modelled explicitly below over ASCII strings.
-/

/-- ASCII whitespace recognised by Python `str.strip()` / `int(str)`
(the embedding restricts to ASCII header values). -/
def pyIsSpace (c : Char) : Bool :=
  c = ' ' || c = '\t' || c = '\n' || c = '\x0d' || c = '\x0b' || c = '\x0c'

/-- Model of Python `str.strip()`: drop leading and trailing whitespace. -/
def pyStrip (s : String) : String :=
  String.mk (((s.data.dropWhile pyIsSpace).reverse.dropWhile pyIsSpace).reverse)

/-- Digit-sequence part of Python `int(str)`: after the first digit, single
underscores are allowed between digits; a trailing underscore is rejected.
The `lastUnd` flag records whether the previous character was an underscore. -/
def pyDigitsAux : List Char → Bool → Nat → Option Nat
  | [], lastUnd, acc => if lastUnd then none else some acc
  | c :: rest, lastUnd, acc =>
    if c.isDigit then pyDigitsAux rest false (acc * 10 + (c.toNat - '0'.toNat))
    else if c = '_' then (if lastUnd then none else pyDigitsAux rest true acc)
    else none

/-- A digit run must start with a digit (no leading underscore). -/
def pyDigitsVal (cs : List Char) : Option Nat :=
  match cs with
  | [] => none
  | c :: rest =>
    if c.isDigit then pyDigitsAux rest false (c.toNat - '0'.toNat) else none

/-- Model of Python `int(s)` for `s : str` (base 10): strip whitespace,
optional sign, digit run with underscores; `none` models `ValueError`. -/
def pyInt (s : String) : Option Int :=
  let cs := ((s.data.dropWhile pyIsSpace).reverse.dropWhile pyIsSpace).reverse
  match cs with
  | '+' :: rest => (pyDigitsVal rest).map Int.ofNat
  | '-' :: rest => (pyDigitsVal rest).map (fun n => -(Int.ofNat n))
  | _ => (pyDigitsVal cs).map Int.ofNat

/-- ASCII lower-casing, as `httpx.Headers` normalises header names. -/
def lowerAscii (s : String) : String := String.mk (s.data.map Char.toLower)

/-- A header mapping: association list of (name, value). -/
def Headers := List (String × String)

/-- Case-insensitive header lookup, modelling `httpx.Headers.get` /
the `in` operator (first match wins). -/
def hget (h : Headers) (k : String) : Option String :=
  (List.find? (fun p => lowerAscii p.1 = lowerAscii k) h).map (fun p => p.2)

/-- Python `x or y` for `x : str | None`, `y : str`: `x` unless it is
falsy (`None` or `""`). -/
def pyOrSS (a : Option String) (b : String) : String :=
  match a with
  | none => b
  | some s => if s = "" then b else s

/-- `_github_token(cli_token)` from the source, with the two environment
variables `GH_TOKEN` and `GITHUB_TOKEN` made explicit parameters
(`none` = unset):
`((cli_token or os.getenv("GH_TOKEN") or os.getenv("GITHUB_TOKEN") or "").strip()) or None`. -/
def githubToken (cli ghEnv gtEnv : Option String) : Option String :=
  let raw := pyOrSS cli (pyOrSS ghEnv (pyOrSS gtEnv ""))
  let s := pyStrip raw
  if s = "" then none else some s

/-- `_github_auth_headers(cli_token)` from the source:
`{"Authorization": f"Bearer {token}"} if token else {}`. -/
def githubAuthHeaders (cli ghEnv gtEnv : Option String) : List (String × String) :=
  match githubToken cli ghEnv gtEnv with
  | some t => [("Authorization", "Bearer " ++ t)]
  | none => []

/-!
## Rate-limit header parsing (`_parse_rate_limit_headers`)

The parsed dictionary becomes a record of `Option` fields: a field is
`some _` exactly when the source inserts the corresponding dict key.
`reset_time` (`datetime.fromtimestamp(e, tz=utc)`) and `reset_local`
(`.astimezone()`) are aware datetimes fully determined by the epoch, so
the embedding represents both by the epoch integer.
-/

/-- Result of `_parse_rate_limit_headers` (the `info` dict). -/
structure RateLimitInfo where
  limit : Option String := none
  remaining : Option String := none
  reset_epoch : Option Int := none
  reset_time : Option Int := none
  reset_local : Option Int := none
  retry_after_seconds : Option Int := none
  retry_after : Option String := none
deriving DecidableEq, Repr

/-- Python dict truthiness for the `info` dict: non-empty iff some key was
inserted, i.e. some field is set. -/
def RateLimitInfo.nonempty (i : RateLimitInfo) : Bool :=
  i.limit.isSome || i.remaining.isSome || i.reset_epoch.isSome ||
  i.reset_time.isSome || i.reset_local.isSome ||
  i.retry_after_seconds.isSome || i.retry_after.isSome

/-- Model of `datetime.fromtimestamp(e, tz=timezone.utc)` for integer `e`:
valid exactly when the UTC result lies in years 1..9999
(epochs −62135596800 = 0001-01-01T00:00:00Z through
253402300799 = 9999-12-31T23:59:59Z); outside that range it raises.
The datetime itself is represented by its epoch. -/
def fromtimestampUTC (e : Int) : Except String Int :=
  if -62135596800 ≤ e ∧ e ≤ 253402300799 then .ok e else .error "ValueError"

/-- The `X-RateLimit-Reset` block of `_parse_rate_limit_headers`:
`reset_epoch = int(headers.get("X-RateLimit-Reset", "0"))` — the bare
`int(...)` raises `ValueError` on a non-numeric value — then
`if reset_epoch:` (zero is falsy, so a zero epoch sets nothing). -/
def parseResetField (h : Headers) : Except String (Option Int) :=
  match hget h "X-RateLimit-Reset" with
  | none => .ok none
  | some v =>
    match pyInt v with
    | none => .error "ValueError"
    | some e =>
      if e = 0 then .ok none
      else
        match fromtimestampUTC e with
        | .error msg => .error msg
        | .ok _ => .ok (some e)

/-- The `Retry-After` block: `int(retry_after)` guarded by
`try/except ValueError`, falling back to the raw string.
Returns `(retry_after_seconds, retry_after)`. -/
def parseRetryField (h : Headers) : Option Int × Option String :=
  match hget h "Retry-After" with
  | none => (none, none)
  | some v =>
    match pyInt v with
    | some n => (some n, none)
    | none => (none, some v)

/-- `_parse_rate_limit_headers(headers)` from the source. A present
`X-RateLimit-Limit` / `X-RateLimit-Remaining` header is stored verbatim;
the reset block may raise (propagated here through `Except`); the
retry-after block never raises. -/
def parseRateLimitHeaders (h : Headers) : Except String RateLimitInfo :=
  match parseResetField h with
  | .error msg => .error msg
  | .ok reset =>
    .ok { limit := hget h "X-RateLimit-Limit"
          remaining := hget h "X-RateLimit-Remaining"
          reset_epoch := reset
          reset_time := reset
          reset_local := reset
          retry_after_seconds := (parseRetryField h).1
          retry_after := (parseRetryField h).2 }

/-!
## Diagnostic formatting (`_format_rate_limit_error`)

The local reset time rendering
`rate_info["reset_local"].strftime("%Y-%m-%d %H:%M:%S %Z")` depends on the
ambient local timezone; the embedding abstracts it as a parameter
`fmt : Int → String` applied to the reset epoch. Everything else is built
literally from the source's string constants.
-/

/-- Python `"\n".join(lines)`. -/
def joinLines : List String → String
  | [] => ""
  | [l] => l
  | l :: ls => l ++ "\n" ++ joinLines ls

/-- The fixed troubleshooting tail appended by `_format_rate_limit_error`. -/
def troubleshootingTips : List String :=
  ["[bold]Troubleshooting Tips:[/bold]",
   "  • If you\x27re on a shared CI or corporate environment, you may be rate-limited.",
   "  • Consider using a GitHub token via --github-token or the GH_TOKEN/GITHUB_TOKEN environment variable.",
   "  • Authenticated requests have a limit of 5,000/hour vs 60/hour for unauthenticated."]

/-- The rate-limit section of the message: present exactly when the parsed
dict is truthy, one bullet per present field, mirroring the four `if`s. -/
def rateLimitSection (fmt : Int → String) (i : RateLimitInfo) : List String :=
  if i.nonempty then
    ["[bold]Rate Limit Information:[/bold]"]
    ++ (match i.limit with
        | some l => ["  • Rate Limit: " ++ l ++ " requests/hour"]
        | none => [])
    ++ (match i.remaining with
        | some r => ["  • Remaining: " ++ r]
        | none => [])
    ++ (match i.reset_local with
        | some e => ["  • Resets at: " ++ fmt e]
        | none => [])
    ++ (match i.retry_after_seconds with
        | some n => ["  • Retry after: " ++ toString n ++ " seconds"]
        | none => [])
    ++ [""]
  else []

/-- The `lines` list built by `_format_rate_limit_error(status_code,
headers, url)` before the final join. The call to
`_parse_rate_limit_headers` may raise; that propagates. -/
def formatRateLimitLines (fmt : Int → String) (status_code : Int)
    (h : Headers) (url : String) : Except String (List String) :=
  match parseRateLimitHeaders h with
  | .error msg => .error msg
  | .ok rate_info =>
    .ok (["GitHub API returned status " ++ toString status_code ++ " for " ++ url, ""]
          ++ rateLimitSection fmt rate_info
          ++ troubleshootingTips)

/-- `_format_rate_limit_error` itself: `"\n".join(lines)`. -/
def formatRateLimitError (fmt : Int → String) (status_code : Int)
    (h : Headers) (url : String) : Except String String :=
  match formatRateLimitLines fmt status_code h url with
  | .error msg => .error msg
  | .ok lines => .ok (joinLines lines)

/-- Extract the lines of a successful format (empty on error). -/
def okLines : Except String (List String) → List String
  | .ok l => l
  | .error _ => []

/-!
## StepTracker

State: `title`, ordered `steps` list, optional refresh callback. The
callback is a Python callable that may raise; it is modelled as a function
`Unit → Except String Unit` (`.error` = the callback raised). A method
call is modelled in `Except String`, so an *uncaught* callback exception
would surface as `.error`; the `try/except Exception: pass` of
`_maybe_refresh` is what makes the methods total. Each method also
returns the number of `_maybe_refresh` invocations it performed, making
"triggers a refresh" observable.

Step statuses are the closed set of strings the source ever assigns
(`pending`/`running`/`done`/`error`/`skipped`), modelled as an enum.
-/

/-- The five step statuses assigned by the source. -/
inductive Status where
  | pending
  | running
  | done
  | error
  | skipped
deriving DecidableEq, Repr

/-- One entry of `self.steps`:
`{"key": ..., "label": ..., "status": ..., "detail": ...}`. -/
structure Step where
  key : String
  label : String
  status : Status
  detail : String
deriving DecidableEq, Repr

/-- The tracker object: `self.title`, `self.steps`, `self._refresh_cb`. -/
structure StepTracker where
  title : String
  steps : List Step
  cb : Option (Unit → Except String Unit)

/-- Pure list semantics of `add`: append a fresh `pending` step with empty
detail unless the key is already registered. -/
def addSteps (st : List Step) (key label : String) : List Step :=
  if key ∈ st.map Step.key then st
  else st ++ [⟨key, label, .pending, ""⟩]

/-- Pure list semantics of `_update`: the first step with a matching key
gets the new status, and the new detail only if `detail` is truthy
(non-empty); with no match, a fresh step with `label = key` is appended
carrying the requested status and detail. -/
def updateSteps (st : List Step) (key : String) (status : Status)
    (detail : String) : List Step :=
  match st with
  | [] => [⟨key, key, status, detail⟩]
  | s :: rest =>
    if s.key = key then
      { s with status := status
               detail := if detail = "" then s.detail else detail } :: rest
    else s :: updateSteps rest key status detail

/-- `_maybe_refresh`: invoke the callback if attached, catching every
exception (`try: self._refresh_cb() except Exception: pass`). -/
def maybeRefresh (cb : Option (Unit → Except String Unit)) : Except String Unit :=
  match cb with
  | none => .ok ()
  | some f =>
    match f () with
    | .ok _ => .ok ()
    | .error _ => .ok ()

/-- `add(key, label)`: the membership test, the append, and one
`_maybe_refresh` call inside the `if` branch only. Returns the new
tracker and the refresh count. -/
def StepTracker.add (t : StepTracker) (key label : String) :
    Except String (StepTracker × Nat) :=
  if key ∈ t.steps.map Step.key then .ok (t, 0)
  else
    match maybeRefresh t.cb with
    | .error msg => .error msg
    | .ok _ => .ok ({ t with steps := t.steps ++ [⟨key, label, .pending, ""⟩] }, 1)

/-- `_update(key, status, detail)`: mutate (or append) as in `updateSteps`,
then exactly one `_maybe_refresh` on either path. -/
def StepTracker.update (t : StepTracker) (key : String) (status : Status)
    (detail : String) : Except String (StepTracker × Nat) :=
  match maybeRefresh t.cb with
  | .error msg => .error msg
  | .ok _ => .ok ({ t with steps := updateSteps t.steps key status detail }, 1)

/-- `start(key, detail="")`. -/
def StepTracker.start (t : StepTracker) (key : String) (detail : String := "") :
    Except String (StepTracker × Nat) :=
  t.update key .running detail

/-- `complete(key, detail="")`. -/
def StepTracker.complete (t : StepTracker) (key : String) (detail : String := "") :
    Except String (StepTracker × Nat) :=
  t.update key .done detail

/-- `error(key, detail="")`. -/
def StepTracker.error (t : StepTracker) (key : String) (detail : String := "") :
    Except String (StepTracker × Nat) :=
  t.update key .error detail

/-- `skip(key, detail="")`. -/
def StepTracker.skip (t : StepTracker) (key : String) (detail : String := "") :
    Except String (StepTracker × Nat) :=
  t.update key .skipped detail

/-- The status symbol chosen by `render` (the dead `else` arm of the source
is unreachable for the closed status set). -/
def statusSymbol : Status → String
  | .done => "[green]●[/green]"
  | .pending => "[green dim]○[/green dim]"
  | .running => "[cyan]○[/cyan]"
  | .error => "[red]●[/red]"
  | .skipped => "[yellow]○[/yellow]"

/-- The line `render` adds to the tree for one step:
`detail_text = step["detail"].strip() if step["detail"] else ""`, then the
pending/non-pending f-string with or without the `(detail_text)` suffix. -/
def renderLine (s : Step) : String :=
  let detail_text := if s.detail = "" then "" else pyStrip s.detail
  let symbol := statusSymbol s.status
  if s.status = .pending then
    if detail_text = "" then
      symbol ++ " [bright_black]" ++ s.label ++ "[/bright_black]"
    else
      symbol ++ " [bright_black]" ++ s.label ++ " (" ++ detail_text ++ ")[/bright_black]"
  else
    if detail_text = "" then
      symbol ++ " [white]" ++ s.label ++ "[/white]"
    else
      symbol ++ " [white]" ++ s.label ++ "[/white] [bright_black](" ++ detail_text ++ ")[/bright_black]"

/-- The tree `render` builds: the styled title root plus one line per step
in insertion order. -/
structure RenderTree where
  root : String
  lines : List String
deriving DecidableEq, Repr

/-- `render()`: reads `self.title` and `self.steps`, builds a fresh `Tree`,
writes nothing. The state-passing form returns the (unchanged) tracker
together with the tree, mirroring that the method only reads `self`. -/
def StepTracker.render (t : StepTracker) : StepTracker × RenderTree :=
  (t, { root := "[cyan]" ++ t.title ++ "[/cyan]"
        lines := t.steps.map renderLine })

/-- Method-call histories against a tracker's step list, for reachability
statements (`add`/`start`/`complete`/`error`/`skip`). -/
inductive Op where
  | add (key label : String)
  | start (key detail : String)
  | complete (key detail : String)
  | error (key detail : String)
  | skip (key detail : String)

/-- Effect of one call on the step list. -/
def applyOp (st : List Step) : Op → List Step
  | .add k l => addSteps st k l
  | .start k d => updateSteps st k .running d
  | .complete k d => updateSteps st k .done d
  | .error k d => updateSteps st k .error d
  | .skip k d => updateSteps st k .skipped d

/-- The step list reached from a fresh tracker by a call history. -/
def runOps (ops : List Op) : List Step := ops.foldl applyOp []

/-!
## Helper lemmas
-/

theorem parseResetField_of_hget (h : Headers) (v : String)
    (hv : hget h "X-RateLimit-Reset" = some v) :
    parseResetField h =
      (match pyInt v with
       | none => .error "ValueError"
       | some e =>
         if e = 0 then .ok none
         else
           match fromtimestampUTC e with
           | .error msg => .error msg
           | .ok _ => .ok (some e)) := by
  unfold parseResetField
  rw [hv]

theorem parseRetryField_of_hget (h : Headers) (v : String)
    (hv : hget h "Retry-After" = some v) :
    parseRetryField h =
      (match pyInt v with
       | some n => (some n, none)
       | none => (none, some v)) := by
  unfold parseRetryField
  rw [hv]

theorem maybeRefresh_ok (cb : Option (Unit → Except String Unit)) :
    maybeRefresh cb = .ok () := by
  unfold maybeRefresh
  cases cb with
  | none => rfl
  | some f => cases h : f () <;> simp [h]

theorem pyStrip_eq_empty_of_all_space (s : String)
    (h : s.data.all pyIsSpace = true) : pyStrip s = "" := by
  unfold pyStrip
  have h1 : s.data.dropWhile pyIsSpace = [] :=
    List.dropWhile_eq_nil_iff.mpr (by simpa [List.all_eq_true] using h)
  rw [h1]
  rfl

theorem keys_addSteps (st : List Step) (key label : String) :
    (addSteps st key label).map Step.key =
      if key ∈ st.map Step.key then st.map Step.key
      else st.map Step.key ++ [key] := by
  unfold addSteps
  split <;> simp_all

theorem keys_updateSteps (st : List Step) (key : String) (status : Status)
    (detail : String) :
    (updateSteps st key status detail).map Step.key =
      if key ∈ st.map Step.key then st.map Step.key
      else st.map Step.key ++ [key] := by
  induction st with
  | nil => simp [updateSteps]
  | cons s rest ih =>
    unfold updateSteps
    by_cases hk : s.key = key
    · simp [hk]
    · have hne : ¬ key = s.key := fun e => hk e.symm
      by_cases hm : key ∈ rest.map Step.key
      · simp [hk, hne, hm, ih]
      · simp [hk, hne, hm, ih]

theorem updateSteps_not_mem (st : List Step) (key : String) (status : Status)
    (detail : String) (h : key ∉ st.map Step.key) :
    updateSteps st key status detail = st ++ [⟨key, key, status, detail⟩] := by
  induction st with
  | nil => rfl
  | cons s rest ih =>
    unfold updateSteps
    have h1 : ¬ s.key = key := by
      intro e
      exact h (by simp [e])
    simp only [h1, if_false]
    rw [ih (fun hm => h (by simp [hm]))]
    simp

theorem nodup_upsert (ks : List String) (k : String) (h : ks.Nodup) :
    (if k ∈ ks then ks else ks ++ [k]).Nodup := by
  split
  · exact h
  · next hk => simp [List.nodup_append, h, hk]

theorem keysNodup_applyOp (st : List Step) (op : Op)
    (h : (st.map Step.key).Nodup) : ((applyOp st op).map Step.key).Nodup := by
  cases op <;>
    simp only [applyOp, keys_addSteps, keys_updateSteps] <;>
    exact nodup_upsert _ _ h

theorem keysNodup_foldl (ops : List Op) (st : List Step)
    (h : (st.map Step.key).Nodup) :
    ((ops.foldl applyOp st).map Step.key).Nodup := by
  induction ops generalizing st with
  | nil => exact h
  | cons op rest ih => exact ih (applyOp st op) (keysNodup_applyOp st op h)

/-!
## Claim theorems
-/

/-- C2: `_github_auth_headers` resolves the token by precedence explicit
argument → `GH_TOKEN` → `GITHUB_TOKEN` → none, and returns an
`Authorization: Bearer <token>` entry exactly when a non-empty token is
resolved; explicit `"abc"` beats an environment `"xyz"`, and with nothing
set there is no Authorization entry. -/
theorem githubAuthHeaders_precedence :
    (∀ gh gt : Option String,
      githubAuthHeaders (some "abc") gh gt = [("Authorization", "Bearer abc")])
    ∧ githubAuthHeaders none none none = []
    ∧ (∀ (s : String) (g1 g2 g1' g2' : Option String), s ≠ "" →
        githubToken (some s) g1 g2 = githubToken (some s) g1' g2')
    ∧ (∀ (g : String) (g2 g2' : Option String), g ≠ "" →
        githubToken none (some g) g2 = githubToken none (some g) g2')
    ∧ (∀ g1 g2 : Option String,
        githubToken (some "") g1 g2 = githubToken none g1 g2)
    ∧ (∀ g2 : Option String,
        githubToken none (some "") g2 = githubToken none none g2)
    ∧ githubToken none none (some "xyz") = some "xyz"
    ∧ (∀ cli g1 g2 : Option String,
        githubAuthHeaders cli g1 g2 =
          match githubToken cli g1 g2 with
          | some t => [("Authorization", "Bearer " ++ t)]
          | none => [])
    ∧ (∀ (cli g1 g2 : Option String) (t : String),
        githubToken cli g1 g2 = some t → t ≠ "") := by
  refine ⟨?_, by decide, ?_, ?_, ?_, ?_, by decide, ?_, ?_⟩
  · intro gh gt
    simp [githubAuthHeaders, githubToken, pyOrSS]
    decide
  · intro s g1 g2 g1' g2' hs
    simp [githubToken, pyOrSS, hs]
  · intro g g2 g2' hg
    simp [githubToken, pyOrSS, hg]
  · intro g1 g2
    simp [githubToken, pyOrSS]
  · intro g2
    simp [githubToken, pyOrSS]
  · intro cli g1 g2
    rfl
  · intro cli g1 g2 t h
    unfold githubToken at h
    by_cases hs : pyStrip (pyOrSS cli (pyOrSS g1 (pyOrSS g2 ""))) = ""
    · simp [hs] at h
    · simp [hs] at h
      exact h ▸ hs

/-- Witness for C2 at concrete inputs: every hypothesis of the theorem is
discharged on explicit data. -/
theorem githubAuthHeaders_precedence_witness :
    githubAuthHeaders (some "abc") (some "xyz") none
        = [("Authorization", "Bearer abc")]
    ∧ githubToken (some "abc") (some "xyz") none
        = githubToken (some "abc") none none
    ∧ githubToken none (some "g") (some "h") = githubToken none (some "g") none
    ∧ ("abc" ≠ "") := by
  refine ⟨githubAuthHeaders_precedence.1 (some "xyz") none,
    githubAuthHeaders_precedence.2.2.1 "abc" (some "xyz") none none none
      (by decide),
    githubAuthHeaders_precedence.2.2.2.1 "g" (some "h") none (by decide),
    by decide⟩

/-- C10: a non-empty explicit token consisting only of whitespace is truthy,
so it short-circuits the fallback chain before stripping: the environment
variables are never consulted and no Authorization header is produced. -/
theorem whitespace_explicit_token_anonymous :
    ∀ (gh gt : Option String) (ws : String), ws ≠ "" →
      ws.data.all pyIsSpace = true →
      githubToken (some ws) gh gt = none
      ∧ githubAuthHeaders (some ws) gh gt = []
      ∧ githubAuthHeaders (some ws) gh gt = githubAuthHeaders (some ws) none none := by
  intro gh gt ws hne hsp
  have htok : githubToken (some ws) gh gt = none := by
    simp [githubToken, pyOrSS, hne, pyStrip_eq_empty_of_all_space ws hsp]
  have htok' : githubToken (some ws) none none = none := by
    simp [githubToken, pyOrSS, hne, pyStrip_eq_empty_of_all_space ws hsp]
  refine ⟨htok, ?_, ?_⟩
  · simp [githubAuthHeaders, htok]
  · simp [githubAuthHeaders, htok, htok']

/-- Witness for C10: explicit token `" "` with `GH_TOKEN = "xyz"` yields an
anonymous request. -/
theorem whitespace_explicit_token_anonymous_witness :
    githubToken (some " ") (some "xyz") none = none
    ∧ githubAuthHeaders (some " ") (some "xyz") none = []
    ∧ githubAuthHeaders (some " ") (some "xyz") none
        = githubAuthHeaders (some " ") none none :=
  whitespace_explicit_token_anonymous (some "xyz") none " "
    (by decide) (by decide)

/-- C5: whatever the attached refresh callback does — including raising —
every state-changing call returns normally (`.ok`), and the returned
tracker carries exactly the pure mutation of the step list, with title and
callback untouched. The universal quantification over `t` ranges over every
callback value, raising ones included. -/
theorem callback_failure_contained :
    ∀ (t : StepTracker) (key label : String) (status : Status) (detail : String),
      t.add key label =
        .ok ({ t with steps := addSteps t.steps key label },
             if key ∈ t.steps.map Step.key then 0 else 1)
      ∧ t.update key status detail =
          .ok ({ t with steps := updateSteps t.steps key status detail }, 1) := by
  intro t key label status detail
  constructor
  · unfold StepTracker.add addSteps
    by_cases hmem : key ∈ t.steps.map Step.key
    · simp [hmem]
    · simp [hmem, maybeRefresh_ok]
  · unfold StepTracker.update
    simp [maybeRefresh_ok]

/-- C8 counterexample: with a refresh callback attached, `add` on an
already-registered key performs zero refresh invocations (the
`_maybe_refresh()` call sits inside the `if key not in ...` branch), so
"every call to add triggers a refresh, for duplicate keys as well" is
false on the code. -/
theorem add_duplicate_triggers_no_refresh :
    StepTracker.add
        ⟨"T", [⟨"a", "A", .pending, ""⟩], some (fun _ => .ok ())⟩ "a" "x"
      = .ok (⟨"T", [⟨"a", "A", .pending, ""⟩], some (fun _ => .ok ())⟩, 0) := rfl

/-- C8 (amended): `add(key, label)` triggers exactly one refresh when the
key is new — registering the step in `pending` status with empty detail —
and triggers no refresh (and changes nothing) when the key is already
registered. -/
theorem add_refresh_semantics :
    ∀ (t : StepTracker) (key label : String),
      (key ∉ t.steps.map Step.key →
        t.add key label =
          .ok ({ t with steps := t.steps ++ [⟨key, label, .pending, ""⟩] }, 1))
      ∧ (key ∈ t.steps.map Step.key → t.add key label = .ok (t, 0)) := by
  intro t key label
  constructor
  · intro hmem
    unfold StepTracker.add
    simp [hmem, maybeRefresh_ok]
  · intro hmem
    unfold StepTracker.add
    simp [hmem]

/-- Witness for C8's amended theorem: both branches exercised on concrete
trackers with an attached callback. -/
theorem add_refresh_semantics_witness :
    StepTracker.add ⟨"T", [], some (fun _ => .error "boom")⟩ "a" "A"
      = .ok (⟨"T", [⟨"a", "A", .pending, ""⟩], some (fun _ => .error "boom")⟩, 1)
    ∧ StepTracker.add ⟨"T", [⟨"a", "A", .pending, ""⟩], none⟩ "a" "B"
      = .ok (⟨"T", [⟨"a", "A", .pending, ""⟩], none⟩, 0) := by
  constructor
  · exact (add_refresh_semantics
      ⟨"T", [], some (fun _ => .error "boom")⟩ "a" "A").1 (by simp)
  · exact (add_refresh_semantics
      ⟨"T", [⟨"a", "A", .pending, ""⟩], none⟩ "a" "B").2 (by simp)

/-- C9: `render()` is a pure projection of tracker state — it leaves the
step list, title and refresh callback unchanged, and calling it again on
the tracker it returns yields the identical tree. -/
theorem render_pure_projection :
    ∀ t : StepTracker,
      (t.render).1 = t
      ∧ (t.render).1.title = t.title
      ∧ (t.render).1.steps = t.steps
      ∧ (t.render).1.cb = t.cb
      ∧ ((t.render).1).render.2 = (t.render).2 := by
  intro t
  exact ⟨rfl, rfl, rfl, rfl, rfl⟩

/-- C3: along every call history from a fresh tracker, step keys are
pairwise distinct (each key appears in exactly one step), and `add` with
an already-registered key leaves the step list unchanged. -/
theorem steptracker_key_uniqueness :
    ∀ ops : List Op,
      ((runOps ops).map Step.key).Nodup
      ∧ (∀ key label : String, key ∈ (runOps ops).map Step.key →
          addSteps (runOps ops) key label = runOps ops
          ∧ ((runOps ops).map Step.key).count key = 1) := by
  intro ops
  have hnd : ((runOps ops).map Step.key).Nodup :=
    keysNodup_foldl ops [] (by simp)
  refine ⟨hnd, ?_⟩
  intro key label hmem
  constructor
  · unfold addSteps
    simp [hmem]
  · exact List.count_eq_one_of_mem hnd hmem

/-- Witness for C3: the history add a, add a (duplicate), start a, add b
yields distinct keys and a duplicate-add no-op on the resulting state. -/
theorem steptracker_key_uniqueness_witness :
    ((runOps [.add "a" "A", .add "a" "A2", .start "a" "", .add "b" "B"]).map
        Step.key).Nodup
    ∧ addSteps (runOps [.add "a" "A", .add "a" "A2", .start "a" "", .add "b" "B"])
          "a" "A3"
        = runOps [.add "a" "A", .add "a" "A2", .start "a" "", .add "b" "B"]
    ∧ ((runOps [.add "a" "A", .add "a" "A2", .start "a" "", .add "b" "B"]).map
          Step.key).count "a" = 1 := by
  have h := steptracker_key_uniqueness
    [.add "a" "A", .add "a" "A2", .start "a" "", .add "b" "B"]
  have h2 := h.2 "a" "A3" (by decide)
  exact ⟨h.1, h2.1, h2.2⟩

/-- C4: a transition call on an unknown key does not fail: the step is
created on the fly with `label = key` and the requested status
(`running`/`done`/`error`/`skipped` for `start`/`complete`/`error`/`skip`),
one refresh fires, and the render output gains a line for the new step. -/
theorem unknown_key_transition :
    ∀ (t : StepTracker) (key detail : String) (status : Status),
      key ∉ t.steps.map Step.key →
      t.update key status detail =
        .ok ({ t with steps := t.steps ++ [⟨key, key, status, detail⟩] }, 1)
      ∧ (⟨key, key, status, detail⟩ : Step) ∈ t.steps ++ [⟨key, key, status, detail⟩]
      ∧ renderLine ⟨key, key, status, detail⟩ ∈
          (StepTracker.render { t with steps := t.steps ++ [⟨key, key, status, detail⟩] }).2.lines
      ∧ t.start key detail = .ok ({ t with steps := t.steps ++ [⟨key, key, .running, detail⟩] }, 1)
      ∧ t.complete key detail = .ok ({ t with steps := t.steps ++ [⟨key, key, .done, detail⟩] }, 1)
      ∧ t.error key detail = .ok ({ t with steps := t.steps ++ [⟨key, key, .error, detail⟩] }, 1)
      ∧ t.skip key detail = .ok ({ t with steps := t.steps ++ [⟨key, key, .skipped, detail⟩] }, 1) := by
  intro t key detail status hmem
  have hupd : ∀ s : Status, t.update key s detail =
      .ok ({ t with steps := t.steps ++ [⟨key, key, s, detail⟩] }, 1) := by
    intro s
    unfold StepTracker.update
    rw [maybeRefresh_ok, updateSteps_not_mem t.steps key s detail hmem]
  refine ⟨hupd status, by simp, ?_, hupd .running, hupd .done, hupd .error, hupd .skipped⟩
  unfold StepTracker.render
  exact List.mem_map_of_mem renderLine (by simp)

/-- Witness for C4: `skip` on the unknown key "z" of a one-step tracker. -/
theorem unknown_key_transition_witness :
    StepTracker.skip ⟨"T", [⟨"a", "A", .running, ""⟩], none⟩ "z" "nope"
      = .ok (⟨"T", [⟨"a", "A", .running, ""⟩, ⟨"z", "z", .skipped, "nope"⟩], none⟩, 1)
    ∧ renderLine ⟨"z", "z", .skipped, "nope"⟩ ∈
        (StepTracker.render
          ⟨"T", [⟨"a", "A", .running, ""⟩, ⟨"z", "z", .skipped, "nope"⟩], none⟩).2.lines := by
  have h := unknown_key_transition ⟨"T", [⟨"a", "A", .running, ""⟩], none⟩
    "z" "nope" Status.skipped (by simp)
  exact ⟨h.2.2.2.2.2.2, h.2.2.1⟩

/-- C6: an absent header leaves the corresponding parsed field unset —
`limit`, `remaining`, the three reset fields and the two retry-after
fields are `none` whenever their header is missing — and
`X-RateLimit-Reset = "0"` yields a successful parse with all reset fields
omitted (zero epoch treated as absent). -/
theorem parse_fields_only_when_present :
    ∀ h : Headers,
      (∀ info, parseRateLimitHeaders h = .ok info →
        (hget h "X-RateLimit-Limit" = none → info.limit = none)
        ∧ (hget h "X-RateLimit-Remaining" = none → info.remaining = none)
        ∧ (hget h "X-RateLimit-Reset" = none →
            info.reset_epoch = none ∧ info.reset_time = none ∧ info.reset_local = none)
        ∧ (hget h "Retry-After" = none →
            info.retry_after_seconds = none ∧ info.retry_after = none)
        ∧ (hget h "X-RateLimit-Reset" = some "0" →
            info.reset_epoch = none ∧ info.reset_time = none ∧ info.reset_local = none))
      ∧ (hget h "X-RateLimit-Reset" = some "0" →
          (parseRateLimitHeaders h).isOk = true) := by
  intro h
  constructor
  · intro info hinfo
    unfold parseRateLimitHeaders at hinfo
    cases hr : parseResetField h with
    | error msg => rw [hr] at hinfo; simp at hinfo
    | ok reset =>
      rw [hr] at hinfo
      simp only [Except.ok.injEq] at hinfo
      subst hinfo
      refine ⟨fun hl => hl, fun hm => hm, ?_, ?_, ?_⟩
      · intro habs
        have : parseResetField h = .ok none := by
          unfold parseResetField; rw [habs]
        rw [hr] at this
        simp only [Except.ok.injEq] at this
        subst this
        exact ⟨rfl, rfl, rfl⟩
      · intro habs
        have hretry : parseRetryField h = (none, none) := by
          unfold parseRetryField; rw [habs]
        simp [hretry]
      · intro h0
        have : parseResetField h = .ok none := by
          unfold parseResetField; rw [h0]; rfl
        rw [hr] at this
        simp only [Except.ok.injEq] at this
        subst this
        exact ⟨rfl, rfl, rfl⟩
  · intro h0
    have hps : parseResetField h = .ok none := by
      unfold parseResetField; rw [h0]; rfl
    unfold parseRateLimitHeaders
    rw [hps]
    rfl

/-- Witness for C6: the empty header mapping parses to the all-absent
record, and a zero reset epoch is dropped. -/
theorem parse_fields_only_when_present_witness :
    (({} : RateLimitInfo).limit = none ∧ ({} : RateLimitInfo).remaining = none)
    ∧ ({} : RateLimitInfo).reset_epoch = none
    ∧ (parseRateLimitHeaders [("X-RateLimit-Reset", "0")]).isOk = true := by
  have h1 := (parse_fields_only_when_present []).1 {} rfl
  have h2 := (parse_fields_only_when_present [("X-RateLimit-Reset", "0")]).2 rfl
  exact ⟨⟨h1.1 rfl, h1.2.1 rfl⟩, (h1.2.2.1 rfl).1, h2⟩

/-- C7: any produced diagnostic opens with the literal status code and URL;
with none of the four headers, the rate-limit section is omitted entirely;
and for status 403 with `Remaining: 0` and a future (representable) reset
epoch, the message carries the "Remaining: 0" bullet and the formatted
local reset time. -/
theorem format_diagnostic_contents :
    ∀ (fmt : Int → String) (status : Int) (h : Headers) (url : String),
      ((formatRateLimitLines fmt status h url).isOk = true →
        (okLines (formatRateLimitLines fmt status h url)).head? =
          some ("GitHub API returned status " ++ toString status ++ " for " ++ url)
        ∧ formatRateLimitError fmt status h url =
            .ok (joinLines (okLines (formatRateLimitLines fmt status h url))))
      ∧ (hget h "X-RateLimit-Limit" = none → hget h "X-RateLimit-Remaining" = none →
          hget h "X-RateLimit-Reset" = none → hget h "Retry-After" = none →
          formatRateLimitLines fmt status h url =
            .ok (["GitHub API returned status " ++ toString status ++ " for " ++ url, ""]
                  ++ troubleshootingTips))
      ∧ (∀ (v : String) (e : Int),
          hget h "X-RateLimit-Remaining" = some "0" →
          hget h "X-RateLimit-Reset" = some v →
          pyInt v = some e → 0 < e → e ≤ 253402300799 →
          (formatRateLimitLines fmt 403 h url).isOk = true
          ∧ "  • Remaining: 0" ∈ okLines (formatRateLimitLines fmt 403 h url)
          ∧ ("  • Resets at: " ++ fmt e) ∈ okLines (formatRateLimitLines fmt 403 h url)) := by
  intro fmt status h url
  refine ⟨?_, ?_, ?_⟩
  · intro hok
    cases hp : parseRateLimitHeaders h with
    | error msg =>
      exfalso
      unfold formatRateLimitLines at hok
      rw [hp] at hok
      simp [Except.isOk, Except.toBool] at hok
    | ok info =>
      have hlines : formatRateLimitLines fmt status h url =
          .ok (["GitHub API returned status " ++ toString status ++ " for " ++ url, ""]
                ++ rateLimitSection fmt info ++ troubleshootingTips) := by
        unfold formatRateLimitLines
        rw [hp]
      constructor
      · rw [hlines]; rfl
      · unfold formatRateLimitError
        rw [hlines]
        rfl
  · intro hl hm hr ha
    have hps : parseResetField h = .ok none := by
      unfold parseResetField; rw [hr]
    have hretry : parseRetryField h = (none, none) := by
      unfold parseRetryField; rw [ha]
    have hp : parseRateLimitHeaders h = .ok {} := by
      unfold parseRateLimitHeaders
      rw [hps]
      simp [hl, hm, hretry]
    unfold formatRateLimitLines
    rw [hp]
    simp [rateLimitSection, RateLimitInfo.nonempty]
  · intro v e hrem hres hint hpos hmax
    have hne : ¬ e = 0 := by omega
    have hft : fromtimestampUTC e = .ok e := by
      unfold fromtimestampUTC
      have : -62135596800 ≤ e ∧ e ≤ 253402300799 := ⟨by omega, hmax⟩
      simp [this]
    have hps : parseResetField h = .ok (some e) := by
      rw [parseResetField_of_hget h v hres, hint]
      simp [hne, hft]
    have hp : parseRateLimitHeaders h = .ok
        { limit := hget h "X-RateLimit-Limit"
          remaining := some "0"
          reset_epoch := some e
          reset_time := some e
          reset_local := some e
          retry_after_seconds := (parseRetryField h).1
          retry_after := (parseRetryField h).2 } := by
      unfold parseRateLimitHeaders
      rw [hps, hrem]
    have hlines : formatRateLimitLines fmt 403 h url =
        .ok (["GitHub API returned status " ++ toString (403 : Int) ++ " for " ++ url, ""]
              ++ rateLimitSection fmt
                  { limit := hget h "X-RateLimit-Limit"
                    remaining := some "0"
                    reset_epoch := some e
                    reset_time := some e
                    reset_local := some e
                    retry_after_seconds := (parseRetryField h).1
                    retry_after := (parseRetryField h).2 }
              ++ troubleshootingTips) := by
      unfold formatRateLimitLines
      rw [hp]
    refine ⟨by rw [hlines]; rfl, ?_, ?_⟩
    · rw [hlines]
      unfold okLines rateLimitSection RateLimitInfo.nonempty
      simp
    · rw [hlines]
      unfold okLines rateLimitSection RateLimitInfo.nonempty
      simp

/-- Witness for C7 on a concrete 403 response: remaining 0, reset at epoch
4102444800, with the formatter instantiated to decimal printing. -/
theorem format_diagnostic_contents_witness :
    (okLines (formatRateLimitLines (fun e => toString e) 403
        [("X-RateLimit-Remaining", "0"), ("X-RateLimit-Reset", "4102444800")]
        "https://api.github.com/repos/o/r/zipball")).head? =
      some ("GitHub API returned status " ++ toString (403 : Int) ++ " for "
            ++ "https://api.github.com/repos/o/r/zipball")
    ∧ "  • Remaining: 0" ∈ okLines (formatRateLimitLines (fun e => toString e) 403
        [("X-RateLimit-Remaining", "0"), ("X-RateLimit-Reset", "4102444800")]
        "https://api.github.com/repos/o/r/zipball")
    ∧ ("  • Resets at: " ++ toString (4102444800 : Int)) ∈
        okLines (formatRateLimitLines (fun e => toString e) 403
          [("X-RateLimit-Remaining", "0"), ("X-RateLimit-Reset", "4102444800")]
          "https://api.github.com/repos/o/r/zipball") := by
  have h := format_diagnostic_contents (fun e => toString e) 403
    [("X-RateLimit-Remaining", "0"), ("X-RateLimit-Reset", "4102444800")]
    "https://api.github.com/repos/o/r/zipball"
  have h3 := h.2.2 "4102444800" 4102444800 rfl rfl (by decide) (by decide) (by decide)
  exact ⟨(h.1 h3.1).1, h3.2.1, h3.2.2⟩

/-- C1 counterexample: a non-numeric `X-RateLimit-Reset` value makes the
bare `int(...)` raise `ValueError`, so neither `_parse_rate_limit_headers`
nor `_format_rate_limit_error` is total — the raw-string fallback exists
only for `Retry-After`. -/
theorem parse_reset_nonnumeric_raises :
    parseRateLimitHeaders [("X-RateLimit-Reset", "abc")] = .error "ValueError"
    ∧ formatRateLimitError (fun e => toString e) 403
        [("X-RateLimit-Reset", "abc")] "https://api.github.com/x"
      = .error "ValueError" :=
  ⟨rfl, rfl⟩

/-- C1 (amended): parsing and formatting never raise on header mappings
whose `X-RateLimit-Reset` value — when present — is a valid integer whose
nonzero epoch lies in the datetime-representable range; on such mappings a
non-numeric `Retry-After` degrades to the raw-string fallback instead of
raising. -/
theorem parse_format_total_when_reset_numeric :
    ∀ h : Headers,
      (∀ v, hget h "X-RateLimit-Reset" = some v →
        ∃ e, pyInt v = some e ∧
          (e ≠ 0 → -62135596800 ≤ e ∧ e ≤ 253402300799)) →
      (parseRateLimitHeaders h).isOk = true
      ∧ (∀ (fmt : Int → String) (status : Int) (url : String),
          (formatRateLimitError fmt status h url).isOk = true)
      ∧ (∀ v, hget h "Retry-After" = some v → pyInt v = none →
          ∀ info, parseRateLimitHeaders h = .ok info →
            info.retry_after = some v ∧ info.retry_after_seconds = none) := by
  intro h hres
  have hps : ∃ r, parseResetField h = .ok r := by
    cases hv : hget h "X-RateLimit-Reset" with
    | none =>
      refine ⟨none, ?_⟩
      unfold parseResetField
      rw [hv]
    | some v =>
      obtain ⟨e, he, hrange⟩ := hres v hv
      rw [parseResetField_of_hget h v hv, he]
      by_cases h0 : e = 0
      · exact ⟨none, by simp [h0]⟩
      · obtain ⟨hlo, hhi⟩ := hrange h0
        refine ⟨some e, ?_⟩
        have hb : -62135596800 ≤ e ∧ e ≤ 253402300799 := ⟨hlo, hhi⟩
        simp [h0, fromtimestampUTC, hb]
  obtain ⟨r, hr⟩ := hps
  have hparse : parseRateLimitHeaders h = .ok
      { limit := hget h "X-RateLimit-Limit"
        remaining := hget h "X-RateLimit-Remaining"
        reset_epoch := r
        reset_time := r
        reset_local := r
        retry_after_seconds := (parseRetryField h).1
        retry_after := (parseRetryField h).2 } := by
    unfold parseRateLimitHeaders
    rw [hr]
  refine ⟨by rw [hparse]; rfl, ?_, ?_⟩
  · intro fmt status url
    unfold formatRateLimitError formatRateLimitLines
    rw [hparse]
    rfl
  · intro v hv hnum info hinfo
    rw [hparse] at hinfo
    simp only [Except.ok.injEq] at hinfo
    subst hinfo
    have hretry : parseRetryField h = (none, some v) := by
      rw [parseRetryField_of_hget h v hv, hnum]
    simp [hretry]

/-- Witness for C1's amended theorem: a numeric reset epoch with a
non-numeric `Retry-After` parses and formats without raising, keeping the
raw retry string. -/
theorem parse_format_total_witness :
    (parseRateLimitHeaders
        [("X-RateLimit-Reset", "420"), ("Retry-After", "soon")]).isOk = true
    ∧ (formatRateLimitError (fun e => toString e) 403
        [("X-RateLimit-Reset", "420"), ("Retry-After", "soon")] "u").isOk = true
    ∧ ({ reset_epoch := some 420, reset_time := some 420, reset_local := some 420,
         retry_after := some "soon" } : RateLimitInfo).retry_after = some "soon"
    ∧ ({ reset_epoch := some 420, reset_time := some 420, reset_local := some 420,
         retry_after := some "soon" } : RateLimitInfo).retry_after_seconds = none := by
  have hhyp : ∀ v, hget [("X-RateLimit-Reset", "420"), ("Retry-After", "soon")]
      "X-RateLimit-Reset" = some v →
      ∃ e, pyInt v = some e ∧
        (e ≠ 0 → -62135596800 ≤ e ∧ e ≤ 253402300799) := by
    intro v hv
    have hcomp : hget [("X-RateLimit-Reset", "420"), ("Retry-After", "soon")]
        "X-RateLimit-Reset" = some "420" := rfl
    rw [hcomp] at hv
    have hveq : v = "420" := (Option.some.inj hv).symm
    subst hveq
    exact ⟨420, by decide, fun _ => by decide⟩
  have h := parse_format_total_when_reset_numeric
    [("X-RateLimit-Reset", "420"), ("Retry-After", "soon")] hhyp
  have h3 := h.2.2 "soon" rfl rfl
    { reset_epoch := some 420, reset_time := some 420, reset_local := some 420,
      retry_after := some "soon" } rfl
  exact ⟨h.1, h.2.1 (fun e => toString e) 403 "u", h3.1, h3.2⟩
